import Mathlib

/-!
Shallow embedding of the "Past Forward" decade-photo application.

Source files embedded here:
  - the main application component (App): the generation orchestrator
    (`handleGenerateClick` with a two-worker pool over a shared decade queue),
    single-item regeneration (`handleRegenerateDecade`), reset (`handleReset`)
    and the album-download handler (`handleDownloadAlbum`);
  - `lib/albumUtils.ts`: the album compositor `createAlbumPage`.

React's `Record<string, GeneratedImage>` state is embedded as an ordered
association list (JavaScript objects preserve insertion order for string
keys); a functional state update of the form
`setGeneratedImages(prev => ({...prev, [decade]: v}))` is embedded as
`storeSet`, which replaces the value at the key's existing position or
appends the key at the end, exactly as object spread does for a
non-integer-like string key. The external Gemini client
(`generateDecadeImage`) and the image decoder (`loadImage`) are opaque
collaborators, embedded as oracle function parameters; `Math.random`
rotations are embedded as an oracle indexed by draw-loop iteration.
-/

namespace PastForward

/-- Status tag of a decade's generation, from `type ImageStatus` in App. -/
inductive ImageStatus where
  | pending
  | done
  | error
deriving DecidableEq, Repr

/-- One entry of the result store, from `interface GeneratedImage` in App:
`status` plus the optional `url` and `error` fields. -/
structure GeneratedImage where
  status : ImageStatus
  url : Option String := none
  error : Option String := none
deriving DecidableEq, Repr

/-- The result store `generatedImages : Record<string, GeneratedImage>`,
as an ordered association list (JS string-keyed objects keep insertion
order). -/
abbrev ResultStore := List (String × GeneratedImage)

/-- Embedding of the object-spread update `{...prev, [k]: v}`: if `k` is
present its value is replaced in place, otherwise `(k, v)` is appended. -/
def storeSet : ResultStore → String → GeneratedImage → ResultStore
  | [], k, v => [(k, v)]
  | (k', v') :: rest, k, v =>
      if k' = k then (k, v) :: rest else (k', v') :: storeSet rest k v

/-- Embedding of the property read `generatedImages[k]` (`undefined` when
the key is absent becomes `none`). -/
def storeGet : ResultStore → String → Option GeneratedImage
  | [], _ => none
  | (k', v) :: rest, k => if k' = k then some v else storeGet rest k

/-- The fixed six-decade enumeration, the constant `DECADES` in App. -/
def DECADES : List String := ["1950s", "1960s", "1970s", "1980s", "1990s", "2000s"]

/-- The entry written for a decade before its generation settles. -/
def pendingImage : GeneratedImage := { status := .pending }

/-- The entry written on generation success: `{status: 'done', url}`. -/
def doneImage (u : String) : GeneratedImage := { status := .done, url := some u }

/-- The entry written on generation failure: `{status: 'error', error}`. -/
def errorImage (m : String) : GeneratedImage := { status := .error, error := some m }

/-- The initial store built by `handleGenerateClick`: every decade mapped to
`{status: 'pending'}`, in `DECADES` order. -/
def initialImages : ResultStore := DECADES.map fun decade => (decade, pendingImage)

/-! ### Basic store lemmas -/

theorem storeGet_storeSet_self (s : ResultStore) (k : String) (v : GeneratedImage) :
    storeGet (storeSet s k v) k = some v := by
  induction s with
  | nil => simp [storeSet, storeGet]
  | cons p rest ih =>
      obtain ⟨k', v'⟩ := p
      by_cases h : k' = k <;> simp [storeSet, storeGet, h, ih]

theorem storeGet_storeSet_ne (s : ResultStore) {k k' : String} (v : GeneratedImage)
    (h : k' ≠ k) : storeGet (storeSet s k v) k' = storeGet s k' := by
  have h' : ¬k = k' := fun e => h e.symm
  induction s with
  | nil => simp [storeSet, storeGet, h']
  | cons p rest ih =>
      obtain ⟨k₀, v₀⟩ := p
      by_cases hk : k₀ = k
      · subst hk
        simp [storeSet, storeGet, h']
      · by_cases hk' : k₀ = k' <;> simp [storeSet, storeGet, hk, hk', h, ih]

theorem storeGet_map_const {l : List String} {d : String} (v : GeneratedImage)
    (h : d ∈ l) : storeGet (l.map fun k => (k, v)) d = some v := by
  induction l with
  | nil => cases h
  | cons k rest ih =>
      by_cases hk : k = d
      · simp [storeGet, hk]
      · rcases List.mem_cons.mp h with h' | h'
        · exact absurd h'.symm hk
        · simp [storeGet, hk, ih h']

/-! ### The generation client and per-item settlement

`generateDecadeImage` is an external collaborator; it is embedded as an
oracle `client : String → Except (Option String) String` mapping a decade
to either the result url or a thrown error (`some message` when the thrown
value is an `Error` with a message, `none` otherwise, matching the
`err instanceof Error` test in the catch blocks). -/

/-- Fallback text used by both catch blocks when the thrown value carries
no message: `"An unknown error occurred."`. -/
def unknownErrorMessage : String := "An unknown error occurred."

/-- The store entry written by `processDecade` (and by the identical
success/catch blocks of `handleRegenerateDecade`) once the client call for
`decade` settles. -/
def settleOutcome (client : String → Except (Option String) String)
    (decade : String) : GeneratedImage :=
  match client decade with
  | .ok resultUrl => doneImage resultUrl
  | .error err => errorImage (err.getD unknownErrorMessage)

/-- Final store of a batch run whose items settle in the order `order`
(the real completion order across the two workers is timing-dependent;
it is always some permutation of `DECADES`). Each settlement is the
functional update `{...prev, [decade]: outcome}` applied to the store left
by the previous one, starting from `initialImages`. -/
def runBatchOrd (client : String → Except (Option String) String)
    (order : List String) : ResultStore :=
  order.foldl (fun s decade => storeSet s decade (settleOutcome client decade)) initialImages

/-! ### App state and handlers -/

/-- The `appState` React state variable of App. -/
inductive AppPhase where
  | idle
  | imageUploaded
  | generating
  | resultsShown
deriving DecidableEq, Repr

/-- The App component's state variables relevant to orchestration. -/
structure AppState where
  uploadedImage : Option String
  generatedImages : ResultStore
  isLoading : Bool
  isDownloading : Bool
  appState : AppPhase
deriving DecidableEq, Repr

/-- App state immediately after `handleGenerateClick` dispatches the batch:
`isLoading` set, phase `generating`, and every decade initialized to
`{status: 'pending'}`. -/
def dispatchState (st : AppState) : AppState :=
  { st with isLoading := true, appState := .generating, generatedImages := initialImages }

/-- Embedding of `handleGenerateClick`: returns the state after the
`await Promise.all(workers)` completes together with the list of decades
sent to the generation client. `order` is the settlement order of the six
client calls. With no uploaded image the handler returns at once. -/
def handleGenerateClick (client : String → Except (Option String) String)
    (order : List String) (st : AppState) : AppState × List String :=
  match st.uploadedImage with
  | none => (st, [])
  | some _ =>
      let st1 := dispatchState st
      ({ st1 with
          generatedImages := runBatchOrd client order
          isLoading := false
          appState := .resultsShown }, order)

/-- The guard `generatedImages[decade]?.status === 'pending'` of
`handleRegenerateDecade` (an absent entry reads as `undefined`, which is
not `'pending'`). -/
def statusIsPending : Option GeneratedImage → Bool
  | some gi => gi.status = .pending
  | none => false

/-- Embedding of `handleRegenerateDecade`: returns the final state and the
list of decades sent to the generation client. When an image is uploaded
and the decade is not pending, the entry is first set to
`{status: 'pending'}` and then overwritten with the settled outcome. -/
def handleRegenerateDecade (client : String → Except (Option String) String)
    (decade : String) (st : AppState) : AppState × List String :=
  match st.uploadedImage with
  | none => (st, [])
  | some _ =>
      if statusIsPending (storeGet st.generatedImages decade) then (st, [])
      else
        let afterPending := storeSet st.generatedImages decade pendingImage
        let afterSettle := storeSet afterPending decade (settleOutcome client decade)
        ({ st with generatedImages := afterSettle }, [decade])

/-- Embedding of `handleReset`: clears the uploaded image and the whole
result store and returns to the idle phase. -/
def handleReset (st : AppState) : AppState :=
  { st with uploadedImage := none, generatedImages := [], appState := .idle }

/-! ### Asynchronous settlement of abandoned calls

A batch item whose `generateDecadeImage` promise is still in flight when
the user resets keeps running; when it settles, `processDecade` invokes
`setGeneratedImages(prev => ...)`, and React applies that functional
updater to the store as it is at settlement time. `StoreEvent` is one such
deferred store mutation. -/

/-- A deferred mutation of the `generatedImages` store: the success or
failure continuation of a `processDecade` call, or the clear performed by
`handleReset`. -/
inductive StoreEvent where
  | settleDone (decade url : String)
  | settleError (decade : String) (err : Option String)
  | reset
deriving DecidableEq, Repr

/-- React's application of one functional updater (or of the
`setGeneratedImages({})` in `handleReset`) to the current store. -/
def applyEvent : ResultStore → StoreEvent → ResultStore
  | s, .settleDone decade url => storeSet s decade (doneImage url)
  | s, .settleError decade err => storeSet s decade (errorImage (err.getD unknownErrorMessage))
  | _, .reset => []

/-- A sequence of deferred store mutations applied in settlement order. -/
def applyEvents (s : ResultStore) (es : List StoreEvent) : ResultStore :=
  es.foldl applyEvent s

/-! ### Lemmas about batch folds -/

theorem storeGet_foldl_of_not_mem (f : String → GeneratedImage) :
    ∀ (l : List String) (s : ResultStore) {d : String}, d ∉ l →
      storeGet (l.foldl (fun acc k => storeSet acc k (f k)) s) d = storeGet s d := by
  intro l
  induction l with
  | nil => intro s d _; rfl
  | cons k rest ih =>
      intro s d h
      have hk : d ≠ k := fun e => h (e ▸ List.mem_cons_self k rest)
      have hrest : d ∉ rest := fun e => h (List.mem_cons_of_mem k e)
      simpa [List.foldl_cons, ih _ hrest] using storeGet_storeSet_ne s (f k) hk

theorem storeGet_foldl_of_mem (f : String → GeneratedImage) :
    ∀ (l : List String) (s : ResultStore) {d : String}, l.Nodup → d ∈ l →
      storeGet (l.foldl (fun acc k => storeSet acc k (f k)) s) d = some (f d) := by
  intro l
  induction l with
  | nil => intro s d _ h; cases h
  | cons k rest ih =>
      intro s d hnd h
      rcases List.mem_cons.mp h with h' | h'
      · subst h'
        have hrest : d ∉ rest := (List.nodup_cons.mp hnd).1
        rw [List.foldl_cons, storeGet_foldl_of_not_mem f rest _ hrest,
          storeGet_storeSet_self]
      · exact List.foldl_cons _ _ ▸ ih _ (List.nodup_cons.mp hnd).2 h'

/-! ### Claims C1, C2, C5, C6, C10 -/

/-- Claim C1, counterexample: from a mid-batch state, invoking
`handleReset` and then letting the abandoned in-flight call for `"1950s"`
resolve leaves the store WITH an entry for `"1950s"` — the settlement's
functional updater runs against the current (cleared) store and re-inserts
the key, so the store does not stay without that key. -/
theorem c1_counterexample :
    storeGet
      (applyEvents
        (handleReset
          { uploadedImage := some "img"
            generatedImages := initialImages
            isLoading := true
            isDownloading := false
            appState := .generating }).generatedImages
        [StoreEvent.settleDone "1950s" "url0"]) "1950s"
      = some (doneImage "url0") := by
  rfl

/-- Claim C1, amended: a user-triggered reset clears the ResultStore, but
the settlement of an abandoned in-flight call is not dropped: whether the
pending `generateDecadeImage` promise later resolves or rejects, its
functional updater applies to the now-cleared store and re-inserts that
decade's entry with the corresponding terminal status. -/
theorem c1_reset_then_settlement_reinserts (st : AppState) (decade url : String)
    (err : Option String) :
    (handleReset st).generatedImages = [] ∧
    storeGet (applyEvents (handleReset st).generatedImages
        [StoreEvent.settleDone decade url]) decade = some (doneImage url) ∧
    storeGet (applyEvents (handleReset st).generatedImages
        [StoreEvent.settleError decade err]) decade
      = some (errorImage (err.getD unknownErrorMessage)) := by
  refine ⟨rfl, ?_, ?_⟩ <;>
    simp [applyEvents, applyEvent, handleReset, storeSet, storeGet]

/-- Claim C2: immediately after batch dispatch every decade's status is
`pending`; once the batch finishes (the six client calls having settled in
some order, i.e. any permutation of `DECADES`), every decade's entry is the
settled outcome of its own client call — `done` with a url on success,
`error` with a message on failure — independently of how the other calls
settled. -/
theorem c2_batch_terminal_statuses (client : String → Except (Option String) String)
    (order : List String) (st : AppState) (decade : String)
    (hperm : DECADES.Perm order) (hd : decade ∈ DECADES) :
    storeGet (dispatchState st).generatedImages decade = some pendingImage ∧
    storeGet (runBatchOrd client order) decade = some (settleOutcome client decade) ∧
    ((settleOutcome client decade).status = .done ∧
        ((settleOutcome client decade).url).isSome = true ∨
      (settleOutcome client decade).status = .error ∧
        ((settleOutcome client decade).error).isSome = true) := by
  refine ⟨storeGet_map_const pendingImage hd, ?_, ?_⟩
  · exact storeGet_foldl_of_mem _ order _
      (hperm.nodup (by decide)) (hperm.mem_iff.mp hd)
  · cases hc : client decade with
    | ok u => left; simp [settleOutcome, hc, doneImage]
    | error e => right; simp [settleOutcome, hc, errorImage]

/-- Witness for C2 at a concrete state, client and settlement order. -/
theorem c2_batch_terminal_statuses_witness :
    storeGet (dispatchState
        { uploadedImage := some "img"
          generatedImages := []
          isLoading := false
          isDownloading := false
          appState := .imageUploaded }).generatedImages "1950s" = some pendingImage ∧
    storeGet (runBatchOrd (fun _ => Except.ok "u") DECADES) "1950s"
      = some (settleOutcome (fun _ => Except.ok "u") "1950s") ∧
    ((settleOutcome (fun _ => Except.ok "u") "1950s").status = .done ∧
        ((settleOutcome (fun _ => Except.ok "u") "1950s").url).isSome = true ∨
      (settleOutcome (fun _ => Except.ok "u") "1950s").status = .error ∧
        ((settleOutcome (fun _ => Except.ok "u") "1950s").error).isSome = true) :=
  c2_batch_terminal_statuses (fun _ => Except.ok "u") DECADES
    { uploadedImage := some "img"
      generatedImages := []
      isLoading := false
      isDownloading := false
      appState := .imageUploaded }
    "1950s" (List.Perm.refl _) (by decide)

/-- Claim C5: regenerating a decade whose current status is `pending` is a
no-op — the state (hence the ResultStore) is returned unchanged and no
call is made to the generation client. -/
theorem c5_regenerate_pending_noop (client : String → Except (Option String) String)
    (decade : String) (st : AppState)
    (h : statusIsPending (storeGet st.generatedImages decade) = true) :
    handleRegenerateDecade client decade st = (st, []) := by
  unfold handleRegenerateDecade
  cases hU : st.uploadedImage with
  | none => rfl
  | some img => simp [h]

/-- Witness for C5: a store whose `"1950s"` entry is pending. -/
theorem c5_regenerate_pending_noop_witness :
    statusIsPending (storeGet
        ({ uploadedImage := some "img"
           generatedImages := [("1950s", pendingImage)]
           isLoading := true
           isDownloading := false
           appState := .generating } : AppState).generatedImages "1950s") = true ∧
    handleRegenerateDecade (fun _ => Except.ok "u") "1950s"
        { uploadedImage := some "img"
          generatedImages := [("1950s", pendingImage)]
          isLoading := true
          isDownloading := false
          appState := .generating }
      = ({ uploadedImage := some "img"
           generatedImages := [("1950s", pendingImage)]
           isLoading := true
           isDownloading := false
           appState := .generating }, []) :=
  ⟨by decide, c5_regenerate_pending_noop (fun _ => Except.ok "u") "1950s" _ (by decide)⟩

/-- Claim C6: regenerating a decade that is not `pending` touches only that
decade's entry: one client call is made for it, the entry passes through
`pending` and ends at the settled terminal outcome (`done` with a url or
`error` with a message), while the entry of every other decade `d'` is
unchanged both at the intermediate pending step and in the final store. -/
theorem c6_regenerate_frame (client : String → Except (Option String) String)
    (decade d' : String) (st : AppState) (img : String)
    (hU : st.uploadedImage = some img)
    (h : statusIsPending (storeGet st.generatedImages decade) = false)
    (hd' : d' ≠ decade) :
    (handleRegenerateDecade client decade st).2 = [decade] ∧
    storeGet (storeSet st.generatedImages decade pendingImage) decade
      = some pendingImage ∧
    storeGet (handleRegenerateDecade client decade st).1.generatedImages decade
      = some (settleOutcome client decade) ∧
    ((settleOutcome client decade).status = .done ∧
        ((settleOutcome client decade).url).isSome = true ∨
      (settleOutcome client decade).status = .error ∧
        ((settleOutcome client decade).error).isSome = true) ∧
    storeGet (storeSet st.generatedImages decade pendingImage) d'
      = storeGet st.generatedImages d' ∧
    storeGet (handleRegenerateDecade client decade st).1.generatedImages d'
      = storeGet st.generatedImages d' ∧
    (handleRegenerateDecade client decade st).1.uploadedImage = st.uploadedImage ∧
    (handleRegenerateDecade client decade st).1.appState = st.appState := by
  have hrun : handleRegenerateDecade client decade st = ({ st with generatedImages := storeSet (storeSet st.generatedImages decade pendingImage) decade (settleOutcome client decade) }, [decade]) := by
    unfold handleRegenerateDecade
    rw [hU]
    simp [h]
  rw [hrun]
  refine ⟨rfl, storeGet_storeSet_self _ _ _, ?_, ?_, ?_, ?_, rfl, rfl⟩
  · exact storeGet_storeSet_self _ _ _
  · cases hc : client decade with
    | ok u => left; simp [settleOutcome, hc, doneImage]
    | error e => right; simp [settleOutcome, hc, errorImage]
  · exact storeGet_storeSet_ne _ _ hd'
  · rw [storeGet_storeSet_ne _ _ hd', storeGet_storeSet_ne _ _ hd']

/-- Witness for C6: regenerate `"1950s"` (absent from the store, hence not
pending) while `"1960s"` holds a done entry that must survive. -/
theorem c6_regenerate_frame_witness :
    (handleRegenerateDecade (fun _ => Except.ok "u2") "1950s"
        { uploadedImage := some "img"
          generatedImages := [("1960s", doneImage "u1")]
          isLoading := false
          isDownloading := false
          appState := .resultsShown }).2 = ["1950s"] ∧
    storeGet (storeSet [("1960s", doneImage "u1")] "1950s" pendingImage) "1950s"
      = some pendingImage ∧
    storeGet (handleRegenerateDecade (fun _ => Except.ok "u2") "1950s"
        { uploadedImage := some "img"
          generatedImages := [("1960s", doneImage "u1")]
          isLoading := false
          isDownloading := false
          appState := .resultsShown }).1.generatedImages "1950s"
      = some (settleOutcome (fun _ => Except.ok "u2") "1950s") ∧
    ((settleOutcome (fun _ => Except.ok "u2") "1950s").status = .done ∧
        ((settleOutcome (fun _ => Except.ok "u2") "1950s").url).isSome = true ∨
      (settleOutcome (fun _ => Except.ok "u2") "1950s").status = .error ∧
        ((settleOutcome (fun _ => Except.ok "u2") "1950s").error).isSome = true) ∧
    storeGet (storeSet [("1960s", doneImage "u1")] "1950s" pendingImage) "1960s"
      = storeGet [("1960s", doneImage "u1")] "1960s" ∧
    storeGet (handleRegenerateDecade (fun _ => Except.ok "u2") "1950s"
        { uploadedImage := some "img"
          generatedImages := [("1960s", doneImage "u1")]
          isLoading := false
          isDownloading := false
          appState := .resultsShown }).1.generatedImages "1960s"
      = storeGet [("1960s", doneImage "u1")] "1960s" ∧
    (handleRegenerateDecade (fun _ => Except.ok "u2") "1950s"
        { uploadedImage := some "img"
          generatedImages := [("1960s", doneImage "u1")]
          isLoading := false
          isDownloading := false
          appState := .resultsShown }).1.uploadedImage = some "img" ∧
    (handleRegenerateDecade (fun _ => Except.ok "u2") "1950s"
        { uploadedImage := some "img"
          generatedImages := [("1960s", doneImage "u1")]
          isLoading := false
          isDownloading := false
          appState := .resultsShown }).1.appState = .resultsShown :=
  c6_regenerate_frame (fun _ => Except.ok "u2") "1950s" "1960s"
    { uploadedImage := some "img"
      generatedImages := [("1960s", doneImage "u1")]
      isLoading := false
      isDownloading := false
      appState := .resultsShown }
    "img" rfl (by decide) (by decide)

/-- Claim C10: with no uploaded image, both the batch generation handler
and the single-item regeneration handler return immediately: the state is
unchanged (no entry set to pending, ResultStore and phase intact) and no
client call is made. -/
theorem c10_no_upload_noop (client : String → Except (Option String) String)
    (order : List String) (decade : String) (st : AppState)
    (hU : st.uploadedImage = none) :
    handleGenerateClick client order st = (st, []) ∧
    handleRegenerateDecade client decade st = (st, []) := by
  constructor
  · unfold handleGenerateClick
    rw [hU]
  · unfold handleRegenerateDecade
    rw [hU]

/-- Witness for C10 at the idle state. -/
theorem c10_no_upload_noop_witness :
    handleGenerateClick (fun _ => Except.ok "u") DECADES
        { uploadedImage := none
          generatedImages := []
          isLoading := false
          isDownloading := false
          appState := .idle }
      = ({ uploadedImage := none
           generatedImages := []
           isLoading := false
           isDownloading := false
           appState := .idle }, []) ∧
    handleRegenerateDecade (fun _ => Except.ok "u") "1950s"
        { uploadedImage := none
          generatedImages := []
          isLoading := false
          isDownloading := false
          appState := .idle }
      = ({ uploadedImage := none
           generatedImages := []
           isLoading := false
           isDownloading := false
           appState := .idle }, []) :=
  c10_no_upload_noop (fun _ => Except.ok "u") DECADES "1950s"
    { uploadedImage := none
      generatedImages := []
      isLoading := false
      isDownloading := false
      appState := .idle } rfl

/-! ### The two-worker pool of `handleGenerateClick`

`handleGenerateClick` starts `concurrencyLimit = 2` async workers over the
shared mutable `decadesQueue`. Under the browser's cooperative scheduler a
worker's `decadesQueue.shift()` together with the synchronous prefix of
`processDecade` (up to the `await` on `generateDecadeImage`) runs without
interleaving; the settlement and terminal-status write is a later atomic
step. `PoolState` records the queue, what each of the two workers is
processing, and the log of pops; `PoolStep` is one scheduler step. -/

/-- The constant `concurrencyLimit` of `handleGenerateClick`. -/
def concurrencyLimit : Nat := 2

/-- Instantaneous state of the worker pool: the shared `decadesQueue`, the
decade each of the two workers is actively processing (`none` when the
worker is between items or finished), and the log of decades popped so
far, in pop order. -/
structure PoolState where
  queue : List String
  w0 : Option String
  w1 : Option String
  popped : List String
deriving DecidableEq, Repr

/-- The pool state right after the workers are started: full queue, both
workers idle, nothing popped. -/
def initPool : PoolState :=
  { queue := DECADES, w0 := none, w1 := none, popped := [] }

/-- One cooperative-scheduler step of the pool: an idle worker pops the
queue head and starts processing it, or a processing worker's client call
settles and it writes the terminal status and returns to its loop. -/
inductive PoolStep : PoolState → PoolState → Prop where
  | pop0 (s : PoolState) (d : String) (rest : List String)
      (hw : s.w0 = none) (hq : s.queue = d :: rest) :
      PoolStep s { queue := rest, w0 := some d, w1 := s.w1, popped := s.popped ++ [d] }
  | pop1 (s : PoolState) (d : String) (rest : List String)
      (hw : s.w1 = none) (hq : s.queue = d :: rest) :
      PoolStep s { queue := rest, w0 := s.w0, w1 := some d, popped := s.popped ++ [d] }
  | finish0 (s : PoolState) (d : String) (hw : s.w0 = some d) :
      PoolStep s { s with w0 := none }
  | finish1 (s : PoolState) (d : String) (hw : s.w1 = some d) :
      PoolStep s { s with w1 := none }

/-- Pool states reachable during one batch run. -/
inductive PoolReach : PoolState → Prop where
  | init : PoolReach initPool
  | step {s s' : PoolState} (h : PoolReach s) (hs : PoolStep s s') : PoolReach s'

/-- Number of decades being actively processed at this instant. -/
def activeCount (s : PoolState) : Nat :=
  (if s.w0.isSome then 1 else 0) + (if s.w1.isSome then 1 else 0)

/-- Pool invariant: the popped log and the remaining queue together are a
permutation of `DECADES`, every active decade has been popped, and the two
workers never hold the same decade. -/
def poolInv (s : PoolState) : Prop :=
  (s.popped ++ s.queue).Perm DECADES ∧
  (∀ d, s.w0 = some d → d ∈ s.popped) ∧
  (∀ d, s.w1 = some d → d ∈ s.popped) ∧
  (∀ d d', s.w0 = some d → s.w1 = some d' → d ≠ d')

theorem poolInv_init : poolInv initPool := by
  refine ⟨List.Perm.refl _, ?_, ?_, ?_⟩
  · intro d h
    simp [initPool] at h
  · intro d h
    simp [initPool] at h
  · intro d d' h h'
    simp [initPool] at h

theorem poolInv_step {s s' : PoolState} (hinv : poolInv s) (hs : PoolStep s s') :
    poolInv s' := by
  obtain ⟨hperm, hw0, hw1, hne⟩ := hinv
  cases hs with
  | pop0 d rest hw hq =>
      rw [hq] at hperm
      have hperm' : ((s.popped ++ [d]) ++ rest).Perm DECADES := by
        simpa [List.append_assoc] using hperm
      have hnodup : (s.popped ++ d :: rest).Nodup :=
        hperm.symm.nodup (by decide)
      have hdnot : d ∉ s.popped := by
        intro hmem
        exact (List.nodup_append.mp hnodup).2.2 hmem (List.mem_cons_self d rest)
      refine ⟨hperm', ?_, ?_, ?_⟩
      · intro d₀ h₀
        cases h₀
        exact List.mem_append_right _ (List.mem_singleton.mpr rfl)
      · intro d₀ h₀
        exact List.mem_append_left _ (hw1 d₀ h₀)
      · intro d₀ d₁ h₀ h₁
        cases h₀
        exact fun e => hdnot (e ▸ hw1 d₁ h₁)
  | pop1 d rest hw hq =>
      rw [hq] at hperm
      have hperm' : ((s.popped ++ [d]) ++ rest).Perm DECADES := by
        simpa [List.append_assoc] using hperm
      have hnodup : (s.popped ++ d :: rest).Nodup :=
        hperm.symm.nodup (by decide)
      have hdnot : d ∉ s.popped := by
        intro hmem
        exact (List.nodup_append.mp hnodup).2.2 hmem (List.mem_cons_self d rest)
      refine ⟨hperm', ?_, ?_, ?_⟩
      · intro d₀ h₀
        exact List.mem_append_left _ (hw0 d₀ h₀)
      · intro d₀ h₀
        cases h₀
        exact List.mem_append_right _ (List.mem_singleton.mpr rfl)
      · intro d₀ d₁ h₀ h₁
        cases h₁
        exact fun e => hdnot (e ▸ hw0 d₀ h₀)
  | finish0 d hw =>
      refine ⟨hperm, ?_, hw1, ?_⟩
      · intro d₀ h₀
        simp at h₀
      · intro d₀ d₁ h₀ h₁
        simp at h₀
  | finish1 d hw =>
      refine ⟨hperm, hw0, ?_, ?_⟩
      · intro d₀ h₀
        simp at h₀
      · intro d₀ d₁ h₀ h₁
        simp at h₁

theorem poolInv_reach {s : PoolState} (h : PoolReach s) : poolInv s := by
  induction h with
  | init => exact poolInv_init
  | step _ hs ih => exact poolInv_step ih hs

/-- Claim C3: in every state the pool can reach during a batch run, at most
`concurrencyLimit = 2` decades are actively being processed, the two
workers never process the same decade, no decade has been popped twice,
and once the shared queue is exhausted every one of the six decades has
been popped exactly once. -/
theorem c3_pool_bounded_concurrency {s : PoolState} (hreach : PoolReach s) :
    activeCount s ≤ concurrencyLimit ∧
    (∀ d d', s.w0 = some d → s.w1 = some d' → d ≠ d') ∧
    s.popped.Nodup ∧
    (s.queue = [] → ∀ d ∈ DECADES, s.popped.count d = 1) := by
  obtain ⟨hperm, _, _, hne⟩ := poolInv_reach hreach
  have hnodup : (s.popped ++ s.queue).Nodup := hperm.symm.nodup (by decide)
  refine ⟨?_, hne, (List.nodup_append.mp hnodup).1, ?_⟩
  · unfold activeCount concurrencyLimit
    cases s.w0 <;> cases s.w1 <;> simp
  · intro hq d hd
    rw [hq, List.append_nil] at hperm
    rw [hperm.count_eq d]
    exact List.count_eq_one_of_mem (by decide) hd

/-- Witness for C3: the terminal state of the schedule in which worker 0
processes all six decades one after the other while worker 1 stays idle. -/
theorem c3_pool_bounded_concurrency_witness :
    activeCount { queue := [], w0 := none, w1 := none, popped := DECADES } ≤ concurrencyLimit ∧
    (∀ d d', ({ queue := [], w0 := none, w1 := none, popped := DECADES } : PoolState).w0 = some d →
      ({ queue := [], w0 := none, w1 := none, popped := DECADES } : PoolState).w1 = some d' → d ≠ d') ∧
    (DECADES).Nodup ∧
    (([] : List String) = [] → ∀ d ∈ DECADES, DECADES.count d = 1) := by
  have h1 : PoolReach initPool := PoolReach.init
  have h2 := PoolReach.step h1
    (PoolStep.pop0 initPool "1950s" ["1960s", "1970s", "1980s", "1990s", "2000s"] rfl rfl)
  have h3 := PoolReach.step h2 (PoolStep.finish0 _ "1950s" rfl)
  have h4 := PoolReach.step h3
    (PoolStep.pop0 _ "1960s" ["1970s", "1980s", "1990s", "2000s"] rfl rfl)
  have h5 := PoolReach.step h4 (PoolStep.finish0 _ "1960s" rfl)
  have h6 := PoolReach.step h5
    (PoolStep.pop0 _ "1970s" ["1980s", "1990s", "2000s"] rfl rfl)
  have h7 := PoolReach.step h6 (PoolStep.finish0 _ "1970s" rfl)
  have h8 := PoolReach.step h7
    (PoolStep.pop0 _ "1980s" ["1990s", "2000s"] rfl rfl)
  have h9 := PoolReach.step h8 (PoolStep.finish0 _ "1980s" rfl)
  have h10 := PoolReach.step h9
    (PoolStep.pop0 _ "1990s" ["2000s"] rfl rfl)
  have h11 := PoolReach.step h10 (PoolStep.finish0 _ "1990s" rfl)
  have h12 := PoolReach.step h11
    (PoolStep.pop0 _ "2000s" [] rfl rfl)
  have h13 := PoolReach.step h12 (PoolStep.finish0 _ "2000s" rfl)
  have hfinal : PoolReach { queue := [], w0 := none, w1 := none, popped := DECADES } := h13
  exact c3_pool_bounded_concurrency hfinal

/-! ### The album compositor (`lib/albumUtils.ts`)

`createAlbumPage` draws onto a fixed 2480×3508 canvas. The browser image
decoder `loadImage` is embedded as an oracle
`decode : String → Except String ImageDims` (the promise rejects when a
url fails to decode); `Promise.all` over the decodes is `loadAll`, which
fails whenever any single decode fails. The drawing is embedded by its
geometry: the list of per-cell draw records, in draw order. Pixel
emission (background, title text, shadow, JPEG encoding) has no
observable structure beyond this geometry and is not modeled. -/

/-- Natural dimensions of a decoded image (`naturalWidth`/`naturalHeight`). -/
structure ImageDims where
  naturalWidth : ℚ
  naturalHeight : ℚ
deriving DecidableEq, Repr

/-- Embedding of `Promise.all(urls.map(loadImage))`: all images decoded in
input order, failing as a whole if any single decode fails. -/
def loadAll (decode : String → Except String ImageDims) :
    List String → Except String (List ImageDims)
  | [] => .ok []
  | u :: rest =>
      match decode u, loadAll decode rest with
      | .error e, _ => .error e
      | .ok _, .error e => .error e
      | .ok img, .ok imgs => .ok (img :: imgs)

/-- Canvas width constant (`canvasWidth = 2480`). -/
def canvasWidth : ℚ := 2480

/-- Canvas height constant (`canvasHeight = 3508`). -/
def canvasHeight : ℚ := 3508

/-- Number of grid columns (`grid.cols = 2`). -/
def gridCols : Nat := 2

/-- Number of grid rows (`grid.rows = 3`). -/
def gridRows : Nat := 3

/-- Uniform grid padding (`grid.padding = 100`). -/
def gridPadding : ℚ := 100

/-- Header space above the grid (`contentTopMargin = 300`). -/
def contentTopMargin : ℚ := 300

/-- Height of the region below the header (`contentHeight`). -/
def contentHeight : ℚ := canvasHeight - contentTopMargin

/-- Width of one grid cell (`cellWidth`). -/
def cellWidth : ℚ := (canvasWidth - gridPadding * ((gridCols : ℚ) + 1)) / (gridCols : ℚ)

/-- Height of one grid cell (`cellHeight`). -/
def cellHeight : ℚ := (contentHeight - gridPadding * ((gridRows : ℚ) + 1)) / (gridRows : ℚ)

/-- Fixed card aspect ratio (`polaroidAspectRatio = 1.2`: height is 1.2
times width). -/
def polaroidAspectRatio : ℚ := 1.2

/-- Maximum card width, 90% of the cell width (`maxPolaroidWidth`). -/
def maxPolaroidWidth : ℚ := cellWidth * 0.9

/-- Maximum card height, 90% of the cell height (`maxPolaroidHeight`). -/
def maxPolaroidHeight : ℚ := cellHeight * 0.9

/-- Final polaroid card width: starts at `maxPolaroidWidth` and is reduced
when the implied height would exceed `maxPolaroidHeight`. -/
def polaroidWidth : ℚ :=
  if maxPolaroidWidth * polaroidAspectRatio > maxPolaroidHeight then
    maxPolaroidHeight / polaroidAspectRatio
  else maxPolaroidWidth

/-- Final polaroid card height, the counterpart of `polaroidWidth`. -/
def polaroidHeight : ℚ :=
  if maxPolaroidWidth * polaroidAspectRatio > maxPolaroidHeight then
    maxPolaroidHeight
  else maxPolaroidWidth * polaroidAspectRatio

/-- Width of the square photo area inside the card
(`imageContainerWidth = polaroidWidth * 0.9`). -/
def imageContainerWidth : ℚ := polaroidWidth * 0.9

/-- Height of the photo area (`imageContainerHeight = imageContainerWidth`). -/
def imageContainerHeight : ℚ := imageContainerWidth

/-- One drawn polaroid cell: the forEach body of `createAlbumPage`,
recorded as geometry. `index` is the original enumeration index computed
from the reversed iteration index; `row`/`col` locate the grid cell;
`x`/`y` are the card's top-left corner; `drawWidth`/`drawHeight` the
letterboxed photo size; `rotation` the random tilt of this draw call. -/
structure DrawCell where
  decade : String
  index : Nat
  row : Nat
  col : Nat
  x : ℚ
  y : ℚ
  rotation : ℚ
  drawWidth : ℚ
  drawHeight : ℚ
deriving DecidableEq, Repr

/-- Geometry of one iteration of the reversed draw loop: item `(decade,
img)` drawn at reversed position `reversedIndex` out of `n` items. -/
def mkCell (rot : Nat → ℚ) (n reversedIndex : Nat) (decade : String)
    (img : ImageDims) : DrawCell :=
  let index := n - 1 - reversedIndex
  let row := index / gridCols
  let col := index % gridCols
  let x := gridPadding * ((col : ℚ) + 1) + cellWidth * (col : ℚ) + (cellWidth - polaroidWidth) / 2
  let y := contentTopMargin + gridPadding * ((row : ℚ) + 1) + cellHeight * (row : ℚ)
    + (cellHeight - polaroidHeight) / 2
  let aspectRatio := img.naturalWidth / img.naturalHeight
  let dw := imageContainerWidth
  let dh := dw / aspectRatio
  let dh' := if dh > imageContainerHeight then imageContainerHeight else dh
  let dw' := if dh > imageContainerHeight then imageContainerHeight * aspectRatio else dw
  { decade := decade, index := index, row := row, col := col, x := x, y := y
    rotation := rot reversedIndex, drawWidth := dw', drawHeight := dh' }

/-- The reversed forEach over `reversedImages`, carrying the running
`reversedIndex`. -/
def drawCellsAux (rot : Nat → ℚ) (n : Nat) :
    Nat → List (String × ImageDims) → List DrawCell
  | _, [] => []
  | reversedIndex, (decade, img) :: rest =>
      mkCell rot n reversedIndex decade img :: drawCellsAux rot n (reversedIndex + 1) rest

/-- All cells drawn by `createAlbumPage`, in draw order: the input items
reversed (`[...imagesWithDecades].reverse()`) and drawn with ascending
`reversedIndex`. -/
def drawCells (rot : Nat → ℚ) (imagesWithDecades : List (String × ImageDims)) :
    List DrawCell :=
  drawCellsAux rot imagesWithDecades.length 0 imagesWithDecades.reverse

/-- The produced album page, abstracted to its draw-order cell geometry. -/
structure AlbumPage where
  cells : List DrawCell
deriving DecidableEq, Repr

/-- Embedding of `createAlbumPage`: decode every input image (failing as a
whole on any single decode failure), pair the decade keys with their
decoded images in enumeration order, and draw the grid. -/
def createAlbumPage (decode : String → Except String ImageDims) (rot : Nat → ℚ)
    (imageData : List (String × String)) : Except String AlbumPage :=
  let decades := imageData.map (·.1)
  match loadAll decode (imageData.map (·.2)) with
  | .error e => .error e
  | .ok loadedImages =>
      let imagesWithDecades := decades.zip loadedImages
      .ok { cells := drawCells rot imagesWithDecades }

/-! ### The album download handler (`handleDownloadAlbum`) -/

/-- JavaScript truthiness of the optional `url` field, as tested by the
filter `image.status === 'done' && image.url` (absent and empty-string
urls are falsy). -/
def urlTruthy : Option String → Bool
  | none => false
  | some s => s ≠ ""

/-- The `imageData` record built by `handleDownloadAlbum`: the entries
whose status is `done` with a truthy url, reduced to decade-to-url pairs
in store order. -/
def doneEntries (s : ResultStore) : List (String × String) :=
  s.filterMap fun p =>
    if p.2.status = ImageStatus.done ∧ urlTruthy p.2.url = true then
      some (p.1, (p.2.url).getD "")
    else none

/-- Observable outcome of one `handleDownloadAlbum` invocation: whether
`createAlbumPage` ran, which alert (if any) was shown, the downloaded
composite, the `isDownloading` flag after the `finally`, and the result
store, which the handler never writes. -/
structure DownloadOutcome where
  compositorCalled : Bool
  blockedAlert : Bool
  failureAlert : Bool
  downloaded : Option AlbumPage
  isDownloading : Bool
  store : ResultStore
deriving DecidableEq, Repr

/-- Embedding of `handleDownloadAlbum`: collect the done images; if fewer
than `DECADES.length` are available, alert and return without compositing;
otherwise run `createAlbumPage`, downloading on success and alerting on
failure; the `finally` clears `isDownloading` on every path. -/
def handleDownloadAlbum (decode : String → Except String ImageDims) (rot : Nat → ℚ)
    (st : AppState) : DownloadOutcome :=
  let imageData := doneEntries st.generatedImages
  if imageData.length < DECADES.length then
    { compositorCalled := false, blockedAlert := true, failureAlert := false
      downloaded := none, isDownloading := false, store := st.generatedImages }
  else
    match createAlbumPage decode rot imageData with
    | .ok page =>
        { compositorCalled := true, blockedAlert := false, failureAlert := false
          downloaded := some page, isDownloading := false, store := st.generatedImages }
    | .error _ =>
        { compositorCalled := true, blockedAlert := false, failureAlert := true
          downloaded := none, isDownloading := false, store := st.generatedImages }

theorem handleDownloadAlbum_frame (decode : String → Except String ImageDims)
    (rot : Nat → ℚ) (st : AppState) :
    (handleDownloadAlbum decode rot st).store = st.generatedImages ∧
    (handleDownloadAlbum decode rot st).isDownloading = false := by
  unfold handleDownloadAlbum
  refine ⟨?_, ?_⟩ <;> (dsimp only; split <;> first | rfl | (split <;> rfl))

/-! ### Lemmas about `loadAll` -/

theorem loadAll_error_of_mem (decode : String → Except String ImageDims) :
    ∀ (urls : List String) (u : String), u ∈ urls → (∃ e, decode u = .error e) →
      ∃ e', loadAll decode urls = .error e' := by
  intro urls
  induction urls with
  | nil => intro u h _; cases h
  | cons v rest ih =>
      intro u h hfail
      rcases List.mem_cons.mp h with h' | h'
      · obtain ⟨e, he⟩ := hfail
        subst h'
        exact ⟨e, by simp [loadAll, he]⟩
      · cases hv : decode v with
        | error e => exact ⟨e, by simp [loadAll, hv]⟩
        | ok img =>
            obtain ⟨e', he'⟩ := ih u h' hfail
            exact ⟨e', by simp [loadAll, hv, he']⟩

theorem loadAll_ok_length (decode : String → Except String ImageDims) :
    ∀ (urls : List String) (imgs : List ImageDims),
      loadAll decode urls = .ok imgs → imgs.length = urls.length := by
  intro urls
  induction urls with
  | nil =>
      intro imgs h
      simp [loadAll] at h
      simp [← h]
  | cons v rest ih =>
      intro imgs h
      cases hv : decode v with
      | error e => simp [loadAll, hv] at h
      | ok img =>
          cases hrest : loadAll decode rest with
          | error e => simp [loadAll, hv, hrest] at h
          | ok imgs' =>
              simp [loadAll, hv, hrest] at h
              simp [← h, ih imgs' hrest]

/-! ### Claims C4, C7, C9 -/

/-- Claim C4: when fewer done images are available than the six-decade
enumeration requires, `handleDownloadAlbum` never invokes the compositor:
it shows the blocking message, downloads nothing, leaves every store entry
unchanged, and clears `isDownloading`. -/
theorem c4_download_blocked (decode : String → Except String ImageDims)
    (rot : Nat → ℚ) (st : AppState)
    (h : (doneEntries st.generatedImages).length < DECADES.length) :
    handleDownloadAlbum decode rot st =
      { compositorCalled := false, blockedAlert := true, failureAlert := false
        downloaded := none, isDownloading := false, store := st.generatedImages } := by
  unfold handleDownloadAlbum
  simp [h]

/-- Witness for C4: the all-pending store has no done image. -/
theorem c4_download_blocked_witness :
    (doneEntries initialImages).length < DECADES.length ∧
    handleDownloadAlbum (fun _ => Except.ok { naturalWidth := 1, naturalHeight := 1 })
        (fun _ => 0)
        { uploadedImage := some "img"
          generatedImages := initialImages
          isLoading := true
          isDownloading := false
          appState := .generating }
      = { compositorCalled := false, blockedAlert := true, failureAlert := false
          downloaded := none, isDownloading := false, store := initialImages } :=
  ⟨by decide,
    c4_download_blocked (fun _ => Except.ok { naturalWidth := 1, naturalHeight := 1 })
      (fun _ => 0)
      { uploadedImage := some "img"
        generatedImages := initialImages
        isLoading := true
        isDownloading := false
        appState := .generating }
      (by decide)⟩

/-- Claim C7: if any single input image fails to decode, the whole
`createAlbumPage` call fails (no composite is produced), while the caller
`handleDownloadAlbum` leaves every per-item status untouched and clears
its `isDownloading` flag on success and failure paths alike. -/
theorem c7_decode_failure_aborts (decode : String → Except String ImageDims)
    (rot : Nat → ℚ) (imageData : List (String × String)) (st : AppState)
    (p : String × String) (e : String)
    (hp : p ∈ imageData) (he : decode p.2 = .error e) :
    (∃ e', createAlbumPage decode rot imageData = .error e') ∧
    (handleDownloadAlbum decode rot st).store = st.generatedImages ∧
    (handleDownloadAlbum decode rot st).isDownloading = false := by
  refine ⟨?_, (handleDownloadAlbum_frame decode rot st).1,
    (handleDownloadAlbum_frame decode rot st).2⟩
  obtain ⟨e', he'⟩ := loadAll_error_of_mem decode (imageData.map (·.2)) p.2
    (List.mem_map_of_mem _ hp) ⟨e, he⟩
  exact ⟨e', by simp [createAlbumPage, he']⟩

/-- Witness for C7: a decoder that rejects the second url. -/
theorem c7_decode_failure_aborts_witness :
    (∃ e', createAlbumPage
        (fun u => if u = "bad" then Except.error "Failed to load image: bad..."
          else Except.ok { naturalWidth := 1, naturalHeight := 1 })
        (fun _ => 0)
        [("1950s", "good"), ("1960s", "bad")] = .error e') ∧
    (handleDownloadAlbum
        (fun u => if u = "bad" then Except.error "Failed to load image: bad..."
          else Except.ok { naturalWidth := 1, naturalHeight := 1 })
        (fun _ => 0)
        { uploadedImage := some "img"
          generatedImages := initialImages
          isLoading := false
          isDownloading := true
          appState := .resultsShown }).store = initialImages ∧
    (handleDownloadAlbum
        (fun u => if u = "bad" then Except.error "Failed to load image: bad..."
          else Except.ok { naturalWidth := 1, naturalHeight := 1 })
        (fun _ => 0)
        { uploadedImage := some "img"
          generatedImages := initialImages
          isLoading := false
          isDownloading := true
          appState := .resultsShown }).isDownloading = false :=
  c7_decode_failure_aborts
    (fun u => if u = "bad" then Except.error "Failed to load image: bad..."
      else Except.ok { naturalWidth := 1, naturalHeight := 1 })
    (fun _ => 0)
    [("1950s", "good"), ("1960s", "bad")]
    { uploadedImage := some "img"
      generatedImages := initialImages
      isLoading := false
      isDownloading := true
      appState := .resultsShown }
    ("1960s", "bad") "Failed to load image: bad..." (by decide) rfl

/-- Claim C9: for the concrete canvas (2480 × 3508), header margin (300),
padding (100) and 2 × 3 grid, the computed polaroid card dimensions keep
the exact 1.2 height-to-width ratio and fit within 90% of the cell
footprint in both dimensions. -/
theorem c9_polaroid_fits_cell :
    polaroidHeight = 1.2 * polaroidWidth ∧
    polaroidWidth ≤ 0.9 * cellWidth ∧
    polaroidHeight ≤ 0.9 * cellHeight := by
  refine ⟨?_, ?_, ?_⟩ <;>
    norm_num [polaroidWidth, polaroidHeight, maxPolaroidWidth, maxPolaroidHeight,
      polaroidAspectRatio, cellWidth, cellHeight, contentHeight, canvasWidth,
      canvasHeight, gridPadding, gridCols, gridRows, contentTopMargin]

/-! ### Lemmas about the draw loop -/

theorem drawCellsAux_length (rot : Nat → ℚ) (n : Nat) :
    ∀ (l : List (String × ImageDims)) (j : Nat),
      (drawCellsAux rot n j l).length = l.length := by
  intro l
  induction l with
  | nil => intro j; rfl
  | cons q rest ih =>
      obtain ⟨d, img⟩ := q
      intro j
      simp [drawCellsAux, ih]

theorem drawCellsAux_getElem? (rot : Nat → ℚ) (n : Nat) :
    ∀ (l : List (String × ImageDims)) (j k : Nat) (p : String × ImageDims),
      l[k]? = some p →
      (drawCellsAux rot n j l)[k]? = some (mkCell rot n (j + k) p.1 p.2) := by
  intro l
  induction l with
  | nil => intro j k p h; simp at h
  | cons q rest ih =>
      obtain ⟨d, img⟩ := q
      intro j k p h
      cases k with
      | zero =>
          rw [List.getElem?_cons_zero] at h
          obtain rfl := Option.some.inj h
          simp [drawCellsAux]
      | succ k' =>
          rw [List.getElem?_cons_succ] at h
          have harith : j + 1 + k' = j + (k' + 1) := by omega
          have := ih (j + 1) k' p h
          rw [harith] at this
          simpa [drawCellsAux] using this

theorem loadAll_ok_of_forall (decode : String → Except String ImageDims) :
    ∀ (urls : List String), (∀ u ∈ urls, ∃ dims, decode u = .ok dims) →
      ∃ imgs, loadAll decode urls = .ok imgs ∧ imgs.length = urls.length := by
  intro urls
  induction urls with
  | nil => exact fun _ => ⟨[], rfl, rfl⟩
  | cons v rest ih =>
      intro h
      obtain ⟨dv, hv⟩ := h v (List.mem_cons_self v rest)
      obtain ⟨imgs, hrest, hlen⟩ := ih fun u hu => h u (List.mem_cons_of_mem v hu)
      exact ⟨dv :: imgs, by simp [loadAll, hv, hrest], by simp [hlen]⟩

/-- Claim C8: when every input decodes, `createAlbumPage` draws one cell
per input item; the item at enumeration position `i` occupies the grid
cell with row `i / 2` and column `i % 2`, and appears at position
`length - 1 - i` of the draw-order list — i.e. the cells are drawn in
reverse enumeration order, so earlier-enumerated items are drawn after
(on top of) later ones. -/
theorem c8_reverse_draw_order (decode : String → Except String ImageDims)
    (rot : Nat → ℚ) (imageData : List (String × String)) (i : Nat)
    (p : String × String) (hi : imageData[i]? = some p)
    (hdec : ∀ q ∈ imageData, ∃ dims, decode q.2 = Except.ok dims) :
    ∃ page, createAlbumPage decode rot imageData = .ok page ∧
      page.cells.length = imageData.length ∧
      ∃ cell, page.cells[imageData.length - 1 - i]? = some cell ∧
        cell.decade = p.1 ∧ cell.index = i ∧ cell.row = i / 2 ∧ cell.col = i % 2 := by
  obtain ⟨loadedImages, hload, hlen⟩ :=
    loadAll_ok_of_forall decode (imageData.map (·.2)) (by
      intro u hu
      obtain ⟨q, hq, rfl⟩ := List.mem_map.mp hu
      exact hdec q hq)
  rw [List.length_map] at hlen
  set zipped := (imageData.map (·.1)).zip loadedImages with hz
  have hzlen : zipped.length = imageData.length := by
    simp [hz, hlen]
  have hi_lt : i < imageData.length := by
    rcases List.getElem?_eq_some_iff.mp hi with ⟨h, _⟩
    exact h
  refine ⟨{ cells := drawCells rot zipped }, ?_, ?_, ?_⟩
  · simp [createAlbumPage, hload]
  · simp [drawCells, drawCellsAux_length, hzlen]
  · obtain ⟨img, himg⟩ : ∃ img, loadedImages[i]? = some img := by
      rw [List.getElem?_eq_getElem (show i < loadedImages.length by omega)]
      exact ⟨_, rfl⟩
    have hzip_i : zipped[i]? = some (p.1, img) := by
      refine List.getElem?_zip_eq_some.mpr ⟨?_, himg⟩
      rw [List.getElem?_map, hi]
      rfl
    have hrev : zipped.reverse[imageData.length - 1 - i]? = some (p.1, img) := by
      rw [List.getElem?_reverse (show imageData.length - 1 - i < zipped.length by omega)]
      have h2 : zipped.length - 1 - (imageData.length - 1 - i) = i := by omega
      rw [h2, hzip_i]
    have hcell := drawCellsAux_getElem? rot zipped.length zipped.reverse 0
      (imageData.length - 1 - i) (p.1, img) hrev
    have hidx : zipped.length - 1 - (imageData.length - 1 - i) = i := by omega
    refine ⟨_, hcell, ?_, ?_, ?_, ?_⟩ <;> simp [mkCell, gridCols, hidx]

/-- Witness for C8: six concrete items, the third (index 2) lands in row 1,
column 0, drawn at position 3 of the draw order. -/
theorem c8_reverse_draw_order_witness :
    ∃ page, createAlbumPage (fun _ => Except.ok { naturalWidth := 1, naturalHeight := 1 })
        (fun _ => 0)
        [("1950s", "u0"), ("1960s", "u1"), ("1970s", "u2"),
          ("1980s", "u3"), ("1990s", "u4"), ("2000s", "u5")] = .ok page ∧
      page.cells.length = [("1950s", "u0"), ("1960s", "u1"), ("1970s", "u2"),
          ("1980s", "u3"), ("1990s", "u4"), ("2000s", "u5")].length ∧
      ∃ cell, page.cells[[("1950s", "u0"), ("1960s", "u1"), ("1970s", "u2"),
          ("1980s", "u3"), ("1990s", "u4"), ("2000s", "u5")].length - 1 - 2]? = some cell ∧
        cell.decade = ("1970s", "u2").1 ∧ cell.index = 2 ∧
        cell.row = 2 / 2 ∧ cell.col = 2 % 2 :=
  c8_reverse_draw_order (fun _ => Except.ok { naturalWidth := 1, naturalHeight := 1 })
    (fun _ => 0)
    [("1950s", "u0"), ("1960s", "u1"), ("1970s", "u2"),
      ("1980s", "u3"), ("1990s", "u4"), ("2000s", "u5")]
    2 ("1970s", "u2") rfl (fun _ _ => ⟨{ naturalWidth := 1, naturalHeight := 1 }, rfl⟩)

end PastForward
